import Mathlib

/-!
Shallow embedding of the Obsidian auto-correct plugin (`src/main.ts`):
the correction-request orchestrator `callLLMForCorrection`, the operation
controller `autoCorrectText`, and the processing-indicator timer pair
`startProcessingIndicator` / `stopProcessingIndicator`.

Modelling conventions:
* JavaScript strings are Lean `String`s; `String.prototype.trim` and
  `String.prototype.split` are modelled on `List Char` below, with the
  JavaScript whitespace set restricted to its common members.
* The network is an environment `ChatRequest → Nat → Option ChatResponse`
  mapping the (constant per call) request and the attempt number to the
  outcome of `requestUrl`: `none` models a transport-level throw, `some r`
  a delivered response with status `r.status`; `r.content = none` models a
  response body in which `choices[0].message.content` is absent (reading it
  throws), `some c` the content string.
* Control flow that throws is modelled with `Except String`, the thrown
  message carried as the value.
* Observable actions (notices, status-bar writes, indicator start/stop,
  document writes, modal opening, and the two suspension points: the
  network call and the backoff sleep) are recorded as an event trace.
  `performance.now()` timing is abstracted by an `elapsedMs : Nat`
  parameter consumed only on the success path; the 5-second deferred
  status-bar clear inside `updateStatusBar` is a detached timer and is not
  part of the invocation's trace.
-/

namespace AutoCorrect

/-- Characters treated as whitespace by the JavaScript runtime for
`String.prototype.trim` and the regex class `\s` (the common members:
ASCII whitespace plus NBSP, BOM and the Unicode line/paragraph separators). -/
def isJsSpace (c : Char) : Bool :=
  c == ' ' || c == '\t' || c == '\n' || c == '\r' || c == '\x0b' || c == '\x0c' ||
  c == ' ' || c == ' ' || c == ' ' || c == '﻿'

/-- `String.prototype.trim` on the character list: drop leading and trailing
whitespace. -/
def jsTrimList (l : List Char) : List Char :=
  ((l.dropWhile isJsSpace).reverse.dropWhile isJsSpace).reverse

/-- `String.prototype.trim`. -/
def jsTrim (s : String) : String :=
  String.mk (jsTrimList s.data)

/-- `leadsWith p l` holds when `p` is an initial segment of `l`
(the prefix test used to locate a separator occurrence). -/
def leadsWith : List Char → List Char → Bool
  | [], _ => true
  | _ :: _, [] => false
  | a :: as, b :: bs => a == b && leadsWith as bs

/-- Locate the first occurrence of `sep` in `s`: returns the part strictly
before the occurrence and the part strictly after it, or `none` when `sep`
does not occur.  (For the separator in this development `sep` is non-empty.) -/
def findSep (sep : List Char) : List Char → Option (List Char × List Char)
  | [] => none
  | c :: rest =>
    if leadsWith sep (c :: rest) then
      some ([], (c :: rest).drop sep.length)
    else
      match findSep sep rest with
      | some (before, after) => some (c :: before, after)
      | none => none

/-- `String.prototype.split` with a non-empty string separator, fuelled for
structural recursion; fuel `s.length + 1` always suffices because each
recursive step consumes at least the separator. -/
def splitOnFrom (sep : List Char) : Nat → List Char → List (List Char)
  | 0, s => [s]
  | fuel + 1, s =>
    match findSep sep s with
    | none => [s]
    | some (before, after) => before :: splitOnFrom sep fuel after

/-- The literal sentinel token separating corrected text from the change list. -/
def sepToken : String := "---CHANGES---"

/-- `responseContent.split('---CHANGES---')` followed by the destructuring
`const [corrected, changes] = parts` and `.trim()` on both.  When the split
yields a single part, `changes` is `undefined` and `changes.trim()` throws:
modelled as `none`. -/
def parseContent (content : String) : Option (String × String) :=
  match splitOnFrom sepToken.data (content.data.length + 1) content.data with
  | c :: ch :: _ => some (jsTrim (String.mk c), jsTrim (String.mk ch))
  | _ => none

/-- `text.split(/\s+/)`, fuelled for structural recursion: words are maximal
runs of non-whitespace; a leading (resp. trailing) whitespace run contributes
a leading (resp. trailing) empty string, as in JavaScript. -/
def splitWsFuel : Nat → List Char → List (List Char)
  | 0, s => [s]
  | fuel + 1, s =>
    let word := s.takeWhile (fun c => !isJsSpace c)
    let rest := s.dropWhile (fun c => !isJsSpace c)
    match rest with
    | [] => [word]
    | _ :: _ => word :: splitWsFuel fuel (rest.dropWhile isJsSpace)

/-- `text.split(/\s+/).length`, the word count used in the processing message. -/
def jsWordCount (text : String) : Nat :=
  (splitWsFuel (text.data.length + 1) text.data).length

/-- `keyboardLayout: 'QWERTY' | 'AZERTY' | 'DVORAK' | 'COLEMAK'`. -/
inductive KeyboardLayout
  | QWERTY
  | AZERTY
  | DVORAK
  | COLEMAK
deriving DecidableEq

/-- The layout's literal name as embedded in the prompt. -/
def KeyboardLayout.name : KeyboardLayout → String
  | QWERTY => "QWERTY"
  | AZERTY => "AZERTY"
  | DVORAK => "DVORAK"
  | COLEMAK => "COLEMAK"

/-- `model: 'gpt-3.5-turbo' | 'gpt-4o-mini'`. -/
inductive ModelId
  | gpt35turbo
  | gpt4oMini
deriving DecidableEq

/-- The model identifier string sent in the request body. -/
def ModelId.name : ModelId → String
  | gpt35turbo => "gpt-3.5-turbo"
  | gpt4oMini => "gpt-4o-mini"

/-- `interface AutoCorrectSettings`. -/
structure AutoCorrectSettings where
  apiKey : String
  keyboardLayout : KeyboardLayout
  model : ModelId
deriving DecidableEq

/-- `DEFAULT_SETTINGS`. -/
def DEFAULT_SETTINGS : AutoCorrectSettings :=
  { apiKey := "", keyboardLayout := KeyboardLayout.QWERTY, model := ModelId.gpt35turbo }

/-- The prompt template literal built in `callLLMForCorrection`. -/
def buildPrompt (layout : KeyboardLayout) (text : String) : String :=
  "Correct the grammar, syntax, and spelling for this markdown text in Obsidian, keeping links and other .md syntax intact. Assume a " ++
  layout.name ++
  " keyboard layout for inferring nearby keys. Do not make major changes. Return the corrected text as plain markdown without any code block formatting, followed by \"---CHANGES---\", then a numbered list of all changes made using the format \"Before\" to \"After\":\n\n    \"" ++
  text ++ "\""

/-- The request handed to `requestUrl`: URL, method, headers and JSON body
fields.  `temperature: 0.1` is recorded in tenths to stay in integers. -/
structure ChatRequest where
  url : String
  method : String
  contentTypeHeader : String
  authorizationHeader : String
  model : String
  messageRole : String
  messageContent : String
  temperatureTenths : Nat
deriving DecidableEq

/-- The concrete request `callLLMForCorrection` builds for a given settings
record and input text (identical on every attempt). -/
def requestOf (s : AutoCorrectSettings) (text : String) : ChatRequest :=
  { url := "https://api.openai.com/v1/chat/completions"
    method := "POST"
    contentTypeHeader := "application/json"
    authorizationHeader := "Bearer " ++ s.apiKey
    model := s.model.name
    messageRole := "user"
    messageContent := buildPrompt s.keyboardLayout text
    temperatureTenths := 1 }

/-- A delivered HTTP response: its status code, and the result of reading
`response.json.choices[0].message.content` (`none` when that path is absent
and reading it throws). -/
structure ChatResponse where
  status : Nat
  content : Option String
deriving DecidableEq

/-- The network environment: attempt number to `requestUrl` outcome
(`none` = transport throw). -/
abbrev NetworkEnv := ChatRequest → Nat → Option ChatResponse

/-- Observable events of one controller invocation, in program order. -/
inductive Event
  | notice (msg : String)
  | statusBar (msg : String)
  | startIndicator
  | stopIndicator
  | awaitNetwork (attempt : Nat)
  | awaitSleep (ms : Nat)
  | setValue (text : String)
  | replaceSelection (text : String)
  | openModal (changes : String) (timeTaken : String)
deriving DecidableEq

/-- Message thrown when the API key is empty (`!apiKey`). -/
def apiKeyMissingMsg : String :=
  "API key is missing. Please set your OpenAI API key in the plugin settings."

/-- The terminal message thrown after the last failed attempt; a constant,
independent of which failure occurred. -/
def terminalErrorMsg : String :=
  "Error during auto-correction after multiple attempts. Please try again later."

/-- One loop iteration's try-block up to the `return`: transport throw,
non-200 status throw, missing content throw, or parse — any `none` lands in
the catch. -/
def attemptOnce (env : NetworkEnv) (req : ChatRequest) (attempt : Nat) :
    Option (String × String) :=
  match env req attempt with
  | none => none
  | some r =>
    if r.status ≠ 200 then none
    else
      match r.content with
      | none => none
      | some content => parseContent content

/-- Result of `callLLMForCorrection`: the returned pair or thrown message,
whether the value came from the post-loop fallback `return`, and the trace of
suspension events (one `awaitNetwork` per executed attempt, one `awaitSleep`
per backoff delay). -/
structure CallResult where
  outcome : Except String (String × String)
  viaFallback : Bool
  trace : List Event

/-- `const maxRetries = 3`. -/
def maxRetries : Nat := 3

/-- The retry loop `for (let attempt = 1; attempt <= maxRetries; attempt++)`,
structurally recursive on the number of remaining iterations
(`remaining = maxRetries - attempt + 1` at entry).  `remaining = 0` is the
loop exiting normally, reaching the post-loop
`return { corrected: '', changes: '' }`.  On a failed attempt with
`attempt < maxRetries` the code sleeps `1000 * attempt` ms and retries;
on the last attempt it throws the terminal error. -/
def retryFrom (env : NetworkEnv) (req : ChatRequest) : Nat → Nat → CallResult
  | _, 0 =>
    { outcome := Except.ok ("", ""), viaFallback := true, trace := [] }
  | attempt, remaining + 1 =>
    match attemptOnce env req attempt with
    | some pair =>
      { outcome := Except.ok pair, viaFallback := false
        trace := [Event.awaitNetwork attempt] }
    | none =>
      if remaining = 0 then
        { outcome := Except.error terminalErrorMsg, viaFallback := false
          trace := [Event.awaitNetwork attempt] }
      else
        let rest := retryFrom env req (attempt + 1) remaining
        { outcome := rest.outcome, viaFallback := rest.viaFallback
          trace := Event.awaitNetwork attempt :: Event.awaitSleep (1000 * attempt) :: rest.trace }

/-- `callLLMForCorrection(text)`: throw on an empty API key before any
network activity, otherwise run the three-attempt retry loop. -/
def callLLMForCorrection (s : AutoCorrectSettings) (env : NetworkEnv)
    (text : String) : CallResult :=
  if s.apiKey = "" then
    { outcome := Except.error apiKeyMissingMsg, viaFallback := false, trace := [] }
  else
    retryFrom env (requestOf s text) 1 maxRetries

/-- The editor handle's readable state: `getValue()` and `getSelection()`. -/
structure EditorState where
  value : String
  selection : String
deriving DecidableEq

/-- `selectionOnly ? editor.getSelection() : editor.getValue()`. -/
def readText (editor : EditorState) (selectionOnly : Bool) : String :=
  if selectionOnly then editor.selection else editor.value

/-- `"No text to correct"`. -/
def noTextMsg : String := "No text to correct"

/-- The generic failure message shown in `autoCorrectText`'s catch block. -/
def errorMessage : String :=
  "Error during auto-correction. Please check your API key and try again."

/-- The processing notice/status text. -/
def processingMessage (scope : String) (wordCount : Nat) (model : ModelId) : String :=
  "Processing " ++ scope ++ " (" ++ toString wordCount ++ " words), using model: " ++
  model.name ++ ", please wait..."

/-- `scope.charAt(0).toUpperCase() + scope.slice(1)`. -/
def capFirst (s : String) : String :=
  match s.data with
  | [] => ""
  | c :: rest => String.mk (c.toUpper :: rest)

/-- Two-digit zero padding for the centisecond part. -/
def pad2 (n : Nat) : String :=
  (if n < 10 then "0" else "") ++ toString n

/-- `((endTime - startTime) / 1000).toFixed(2)` on integral elapsed
milliseconds: seconds with two decimals, rounding to the nearest
centisecond. -/
def toFixed2Seconds (elapsedMs : Nat) : String :=
  let cs := (elapsedMs + 5) / 10
  toString (cs / 100) ++ "." ++ pad2 (cs % 100)

/-- The success notice/status text. -/
def successMessage (scope : String) (timeTaken : String) : String :=
  capFirst scope ++ " auto-corrected successfully in " ++ timeTaken ++ " seconds!"

/-- `const scope = selectionOnly ? "selection" : "file"`. -/
def scopeOf (selectionOnly : Bool) : String :=
  if selectionOnly then "selection" else "file"

/-- `autoCorrectText(editor, selectionOnly)` as the trace of its observable
events.  Program order: read text; empty-text early return; processing
notice, status-bar write and indicator start; the orchestrator call; then
either the document write, success notice/status, changes modal and the
`finally` indicator stop, or the catch-block notice/status and the same
`finally` stop. -/
def autoCorrectText (s : AutoCorrectSettings) (env : NetworkEnv)
    (editor : EditorState) (selectionOnly : Bool) (elapsedMs : Nat) : List Event :=
  let text := readText editor selectionOnly
  let wordCount := jsWordCount text
  if text = "" then
    [Event.notice noTextMsg]
  else
    let scope := scopeOf selectionOnly
    let pm := processingMessage scope wordCount s.model
    let pre := [Event.notice pm, Event.statusBar pm, Event.startIndicator]
    let call := callLLMForCorrection s env text
    match call.outcome with
    | Except.ok (corrected, changes) =>
      let timeTaken := toFixed2Seconds elapsedMs
      let sm := successMessage scope timeTaken
      let writeEv :=
        if selectionOnly then Event.replaceSelection corrected
        else Event.setValue corrected
      pre ++ call.trace ++
        [writeEv, Event.notice sm, Event.statusBar sm,
         Event.openModal changes timeTaken, Event.stopIndicator]
    | Except.error _ =>
      pre ++ call.trace ++
        [Event.notice errorMessage, Event.statusBar errorMessage, Event.stopIndicator]

/-- Suspension events: points where the invocation yields to the event loop. -/
def isAwait : Event → Bool
  | Event.awaitNetwork _ => true
  | Event.awaitSleep _ => true
  | _ => false

/-- Number of `requestUrl` invocations recorded in a trace. -/
def networkCalls (t : List Event) : Nat :=
  (t.filter fun e => match e with | Event.awaitNetwork _ => true | _ => false).length

/-- The backoff delays recorded in a trace, in order, in milliseconds. -/
def sleepsOf (t : List Event) : List Nat :=
  t.filterMap fun e => match e with | Event.awaitSleep n => some n | _ => none

/-- Number of document mutations (`setValue` or `replaceSelection`) in a trace. -/
def docWrites (t : List Event) : Nat :=
  (t.filter fun e =>
    match e with
    | Event.setValue _ => true
    | Event.replaceSelection _ => true
    | _ => false).length

/-- Number of changes-modal openings in a trace. -/
def modalOpens (t : List Event) : Nat :=
  (t.filter fun e => match e with | Event.openModal _ _ => true | _ => false).length

/-- Number of notices carrying exactly `msg`. -/
def noticeCount (msg : String) (t : List Event) : Nat :=
  t.count (Event.notice msg)

/-- Number of status-bar writes carrying exactly `msg`. -/
def statusBarCount (msg : String) (t : List Event) : Nat :=
  t.count (Event.statusBar msg)

/-- State of the processing-indicator machinery: the plugin's
`processingIndicator` handle, the identifiers of interval timers currently
live in the host, a fresh-identifier counter, and the status-bar text. -/
structure IndicatorState where
  processingIndicator : Option Nat
  activeTimers : List Nat
  nextTimerId : Nat
  statusText : String
deriving DecidableEq

/-- The plugin's initial state: `processingIndicator = null`, no live timers. -/
def initialIndicatorState : IndicatorState :=
  { processingIndicator := none, activeTimers := [], nextTimerId := 0, statusText := "" }

/-- `startProcessingIndicator()`: clear any previously stored interval, then
create a fresh one and store its handle.  (The interval's callback animates
the status bar asynchronously and is not part of this state step.) -/
def startProcessingIndicator (st : IndicatorState) : IndicatorState :=
  let cleared :=
    match st.processingIndicator with
    | some h => { st with activeTimers := st.activeTimers.erase h }
    | none => st
  { cleared with
    processingIndicator := some cleared.nextTimerId
    activeTimers := cleared.activeTimers ++ [cleared.nextTimerId]
    nextTimerId := cleared.nextTimerId + 1 }

/-- `stopProcessingIndicator()`: when a handle is stored, clear that interval,
null the handle and blank the status bar; otherwise do nothing. -/
def stopProcessingIndicator (st : IndicatorState) : IndicatorState :=
  match st.processingIndicator with
  | some h =>
    { st with
      processingIndicator := none
      activeTimers := st.activeTimers.erase h
      statusText := "" }
  | none => st

/-- The two operations the plugin ever performs on the indicator state. -/
inductive IndicatorOp
  | start
  | stop
deriving DecidableEq

/-- Interpret one indicator operation. -/
def indicatorStep (st : IndicatorState) (op : IndicatorOp) : IndicatorState :=
  match op with
  | IndicatorOp.start => startProcessingIndicator st
  | IndicatorOp.stop => stopProcessingIndicator st

/-- Run a sequence of indicator operations from the initial state. -/
def runIndicator (ops : List IndicatorOp) : IndicatorState :=
  ops.foldl indicatorStep initialIndicatorState

/-- A settings record with a configured key, used for concrete runs. -/
def sampleSettings : AutoCorrectSettings :=
  { apiKey := "k", keyboardLayout := KeyboardLayout.QWERTY, model := ModelId.gpt35turbo }

/-- A network in which every request throws at the transport level. -/
def envAllFail : NetworkEnv := fun _ _ => none

/-- A network that always answers with HTTP 500. -/
def envStatus500 : NetworkEnv := fun _ _ => some { status := 500, content := none }

/-- A network whose response content is the bare separator token followed by
a change list: the split yields an empty corrected half. -/
def envSepOnly : NetworkEnv :=
  fun _ _ => some { status := 200, content := some "---CHANGES---x" }

/-- A network whose response content lacks the separator token. -/
def envNoSep : NetworkEnv :=
  fun _ _ => some { status := 200, content := some "There are 3 cats. No separator here." }

/-- A network returning the spec's well-formed example content. -/
def envGood : NetworkEnv :=
  fun _ _ =>
    some { status := 200
           content := some "There are 3 cats.---CHANGES---1. Their to There" }

/-- An editor whose selection is a single space (whitespace-only, non-empty). -/
def spaceSelectionEditor : EditorState := { value := "x", selection := " " }

/-- An editor holding a small document and no selection. -/
def sampleEditor : EditorState := { value := "Their are 3 cats.", selection := "" }

/-- An editor with nothing in it. -/
def emptyEditor : EditorState := { value := "", selection := "" }

/-- An attempt that fails for a network-level reason: transport throw or
non-success HTTP status. -/
def networkAttemptFails (env : NetworkEnv) (req : ChatRequest) (i : Nat) : Prop :=
  env req i = none ∨ ∃ r, env req i = some r ∧ r.status ≠ 200

/-- C3 as stated by the spec: every successful orchestrator return carries
two whitespace-trimmed NON-EMPTY strings, and the corrected half contains no
occurrence of the separator token. -/
def C3ClaimStatement : Prop :=
  ∀ (s : AutoCorrectSettings) (env : NetworkEnv) (text : String),
    s.apiKey ≠ "" → text ≠ "" →
    ∀ corrected changes,
      (callLLMForCorrection s env text).outcome = Except.ok (corrected, changes) →
      jsTrim corrected = corrected ∧ corrected ≠ "" ∧
      jsTrim changes = changes ∧ changes ≠ "" ∧
      findSep sepToken.data corrected.data = none

/-- C5 as stated by the spec: an input text that is empty or whitespace-only
never triggers a network call and never starts the visual indicator. -/
def C5ClaimStatement : Prop :=
  ∀ (s : AutoCorrectSettings) (env : NetworkEnv) (editor : EditorState)
    (selectionOnly : Bool) (elapsedMs : Nat),
    (readText editor selectionOnly).data.all isJsSpace →
    networkCalls (autoCorrectText s env editor selectionOnly elapsedMs) = 0 ∧
    Event.startIndicator ∉ autoCorrectText s env editor selectionOnly elapsedMs

/-! ### Properties of the embedded JavaScript string primitives -/

theorem dropWhile_head_false {α : Type} (p : α → Bool) :
    ∀ (l : List α) (a : α) (t : List α), l.dropWhile p = a :: t → p a = false := by
  intro l
  induction l with
  | nil => intro a t h; simp [List.dropWhile] at h
  | cons c r ih =>
    intro a t h
    rw [List.dropWhile_cons] at h
    by_cases hc : p c
    · rw [if_pos hc] at h
      exact ih a t h
    · rw [if_neg hc] at h
      cases h
      simpa using hc

theorem dropWhile_eq_trim_append (l : List Char) :
    l.dropWhile isJsSpace =
      jsTrimList l ++ ((l.dropWhile isJsSpace).reverse.takeWhile isJsSpace).reverse := by
  have h2 : (l.dropWhile isJsSpace).reverse.takeWhile isJsSpace ++
      (l.dropWhile isJsSpace).reverse.dropWhile isJsSpace = (l.dropWhile isJsSpace).reverse :=
    List.takeWhile_append_dropWhile isJsSpace (l.dropWhile isJsSpace).reverse
  have h2r := congrArg List.reverse h2
  rw [List.reverse_append, List.reverse_reverse] at h2r
  rw [jsTrimList]
  exact h2r.symm

theorem jsTrimList_middle (l : List Char) :
    ∃ x y, l = x ++ jsTrimList l ++ y := by
  refine ⟨l.takeWhile isJsSpace,
    ((l.dropWhile isJsSpace).reverse.takeWhile isJsSpace).reverse, ?_⟩
  calc l = l.takeWhile isJsSpace ++ l.dropWhile isJsSpace :=
        (List.takeWhile_append_dropWhile isJsSpace l).symm
    _ = l.takeWhile isJsSpace ++
        (jsTrimList l ++ ((l.dropWhile isJsSpace).reverse.takeWhile isJsSpace).reverse) := by
        rw [← dropWhile_eq_trim_append]
    _ = l.takeWhile isJsSpace ++ jsTrimList l ++
        ((l.dropWhile isJsSpace).reverse.takeWhile isJsSpace).reverse := by
        rw [List.append_assoc]

theorem jsTrimList_dropWhile (l : List Char) :
    (jsTrimList l).dropWhile isJsSpace = jsTrimList l := by
  cases hz : jsTrimList l with
  | nil => simp [List.dropWhile]
  | cons a z =>
    have hm0 := dropWhile_eq_trim_append l
    rw [hz] at hm0
    rw [List.cons_append] at hm0
    have ha := dropWhile_head_false isJsSpace l a _ hm0
    rw [List.dropWhile_cons, ha]
    simp

theorem jsTrimList_idem (l : List Char) :
    jsTrimList (jsTrimList l) = jsTrimList l := by
  show ((((jsTrimList l).dropWhile isJsSpace).reverse).dropWhile isJsSpace).reverse = jsTrimList l
  rw [jsTrimList_dropWhile]
  conv_lhs => rw [jsTrimList]
  rw [List.reverse_reverse, List.dropWhile_idempotent]
  rfl

theorem jsTrim_idem (s : String) : jsTrim (jsTrim s) = jsTrim s := by
  show String.mk (jsTrimList (String.mk (jsTrimList s.data)).data) = jsTrim s
  rw [jsTrim]
  exact congrArg String.mk (jsTrimList_idem s.data)

theorem leadsWith_iff (p : List Char) :
    ∀ l : List Char, leadsWith p l = true ↔ ∃ t, l = p ++ t := by
  induction p with
  | nil => intro l; simp [leadsWith]
  | cons a as ih =>
    intro l
    cases l with
    | nil => simp [leadsWith]
    | cons b bs =>
      simp only [leadsWith, Bool.and_eq_true, beq_iff_eq, List.cons_append]
      constructor
      · rintro ⟨hab, h⟩
        obtain ⟨t, ht⟩ := (ih bs).mp h
        exact ⟨t, by rw [hab, ht]⟩
      · rintro ⟨t, ht⟩
        injection ht with h1 h2
        exact ⟨h1.symm, (ih bs).mpr ⟨t, h2⟩⟩

theorem findSep_eq (sep : List Char) :
    ∀ (s pre post : List Char), findSep sep s = some (pre, post) → s = pre ++ sep ++ post := by
  intro s
  induction s with
  | nil => intro pre post h; simp [findSep] at h
  | cons c rest ih =>
    intro pre post h
    rw [findSep] at h
    by_cases hlw : leadsWith sep (c :: rest) = true
    · rw [if_pos hlw] at h
      cases h
      obtain ⟨t, ht⟩ := (leadsWith_iff sep (c :: rest)).mp hlw
      rw [ht, List.drop_left]
      simp
    · rw [if_neg hlw] at h
      cases hf : findSep sep rest with
      | none => rw [hf] at h; simp at h
      | some pq =>
        obtain ⟨p, q⟩ := pq
        rw [hf] at h
        rw [Option.some.injEq, Prod.mk.injEq] at h
        obtain ⟨h1, h2⟩ := h
        subst h1
        subst h2
        have hr := ih p q hf
        rw [hr]
        simp

theorem findSep_ne_decomp (sep : List Char) (hsep : sep ≠ []) :
    ∀ s, findSep sep s = none → ∀ u v, s ≠ u ++ sep ++ v := by
  intro s
  induction s with
  | nil =>
    intro _ u v heq
    rcases List.append_eq_nil.mp heq.symm with ⟨h1, _⟩
    rcases List.append_eq_nil.mp h1 with ⟨_, h2⟩
    exact hsep h2
  | cons c rest ih =>
    intro hnone u v heq
    rw [findSep] at hnone
    by_cases hlw : leadsWith sep (c :: rest) = true
    · rw [if_pos hlw] at hnone
      simp at hnone
    · rw [if_neg hlw] at hnone
      have hrest : findSep sep rest = none := by
        cases hf : findSep sep rest with
        | none => rfl
        | some pq => obtain ⟨p, q⟩ := pq; rw [hf] at hnone; simp at hnone
      cases u with
      | nil =>
        apply hlw
        apply (leadsWith_iff sep (c :: rest)).mpr
        exact ⟨v, by simpa using heq⟩
      | cons a u' =>
        have h2 : rest = u' ++ sep ++ v := by
          simp only [List.cons_append] at heq
          injection heq with _ h3
        exact ih hrest u' v h2

theorem findSep_first_none (sep : List Char) :
    ∀ (s pre post : List Char), findSep sep s = some (pre, post) → findSep sep pre = none := by
  intro s
  induction s with
  | nil => intro pre post h; simp [findSep] at h
  | cons c rest ih =>
    intro pre post h
    rw [findSep] at h
    by_cases hlw : leadsWith sep (c :: rest) = true
    · rw [if_pos hlw] at h
      cases h
      rfl
    · rw [if_neg hlw] at h
      cases hf : findSep sep rest with
      | none => rw [hf] at h; simp at h
      | some pq =>
        obtain ⟨p, q⟩ := pq
        rw [hf] at h
        rw [Option.some.injEq, Prod.mk.injEq] at h
        obtain ⟨h1, h2⟩ := h
        subst h1
        subst h2
        have hp := ih p q hf
        have hrest := findSep_eq sep rest p q hf
        have hlw2 : ¬ leadsWith sep (c :: p) = true := by
          intro hl
          obtain ⟨t, ht⟩ := (leadsWith_iff sep (c :: p)).mp hl
          apply hlw
          apply (leadsWith_iff sep (c :: rest)).mpr
          refine ⟨t ++ (sep ++ q), ?_⟩
          calc c :: rest = (c :: p) ++ (sep ++ q) := by rw [hrest]; simp
            _ = (sep ++ t) ++ (sep ++ q) := by rw [ht]
            _ = sep ++ (t ++ (sep ++ q)) := by rw [List.append_assoc]
        simp only [findSep]
        rw [if_neg hlw2, hp]

theorem findSep_trim_none (sep : List Char) (hsep : sep ≠ []) (l : List Char)
    (h : findSep sep l = none) : findSep sep (jsTrimList l) = none := by
  cases hf : findSep sep (jsTrimList l) with
  | none => rfl
  | some pq =>
    obtain ⟨a, b⟩ := pq
    exfalso
    have hdecomp := findSep_eq sep (jsTrimList l) a b hf
    obtain ⟨x, y, hxy⟩ := jsTrimList_middle l
    apply findSep_ne_decomp sep hsep l h (x ++ a) (b ++ y)
    rw [hxy, hdecomp]
    simp [List.append_assoc]

theorem parseContent_shape (content c ch : String)
    (h : parseContent content = some (c, ch)) :
    jsTrim c = c ∧ jsTrim ch = ch ∧ findSep sepToken.data c.data = none := by
  rw [parseContent] at h
  cases hs : splitOnFrom sepToken.data (content.data.length + 1) content.data with
  | nil => rw [hs] at h; simp at h
  | cons c0 rest =>
    cases rest with
    | nil => rw [hs] at h; simp at h
    | cons ch0 rest2 =>
      rw [hs] at h
      cases h
      refine ⟨jsTrim_idem (String.mk c0), jsTrim_idem (String.mk ch0), ?_⟩
      have hc0 : findSep sepToken.data c0 = none := by
        rw [splitOnFrom] at hs
        cases hf : findSep sepToken.data content.data with
        | none => rw [hf] at hs; simp at hs
        | some pq =>
          obtain ⟨pre, post⟩ := pq
          rw [hf] at hs
          injection hs with h1 _
          exact h1 ▸ findSep_first_none sepToken.data content.data pre post hf
      show findSep sepToken.data (jsTrimList c0) = none
      exact findSep_trim_none sepToken.data (by decide) c0 hc0

/-! ### Orchestrator lemmas -/

theorem attemptOnce_none_of_networkFail (env : NetworkEnv) (req : ChatRequest) (i : Nat)
    (h : networkAttemptFails env req i) : attemptOnce env req i = none := by
  rcases h with h | ⟨r, hr, hst⟩
  · simp [attemptOnce, h]
  · simp [attemptOnce, hr, hst]

theorem attemptOnce_none_of_noSep (env : NetworkEnv) (req : ChatRequest) (i : Nat)
    (r : ChatResponse) (c : String)
    (hr : env req i = some r) (hst : r.status = 200) (hc : r.content = some c)
    (hsep : findSep sepToken.data c.data = none) : attemptOnce env req i = none := by
  simp [attemptOnce, hr, hst, hc, parseContent, splitOnFrom, hsep]

theorem attemptOnce_ok (env : NetworkEnv) (req : ChatRequest) (i : Nat) (c ch : String)
    (h : attemptOnce env req i = some (c, ch)) :
    ∃ content, parseContent content = some (c, ch) := by
  unfold attemptOnce at h
  split at h
  · simp at h
  · split at h
    · simp at h
    · split at h
      · simp at h
      · exact ⟨_, h⟩

theorem retryFrom_succ_fail (env : NetworkEnv) (req : ChatRequest) (a n : Nat)
    (ha : attemptOnce env req a = none) (hn : ¬ n = 0) :
    retryFrom env req a (n + 1) =
      { outcome := (retryFrom env req (a + 1) n).outcome
        viaFallback := (retryFrom env req (a + 1) n).viaFallback
        trace := Event.awaitNetwork a :: Event.awaitSleep (1000 * a) ::
          (retryFrom env req (a + 1) n).trace } := by
  rw [retryFrom, ha, if_neg hn]

theorem retryFrom_last_fail (env : NetworkEnv) (req : ChatRequest) (a : Nat)
    (ha : attemptOnce env req a = none) :
    retryFrom env req a 1 =
      { outcome := Except.error terminalErrorMsg, viaFallback := false
        trace := [Event.awaitNetwork a] } := by
  show retryFrom env req a (0 + 1) = _
  rw [retryFrom, ha, if_pos rfl]

theorem retry_all_fail (env : NetworkEnv) (req : ChatRequest)
    (h1 : attemptOnce env req 1 = none) (h2 : attemptOnce env req 2 = none)
    (h3 : attemptOnce env req 3 = none) :
    retryFrom env req 1 3 =
      { outcome := Except.error terminalErrorMsg, viaFallback := false
        trace := [Event.awaitNetwork 1, Event.awaitSleep 1000,
                  Event.awaitNetwork 2, Event.awaitSleep 2000, Event.awaitNetwork 3] } := by
  have e3 := retryFrom_last_fail env req 3 h3
  have e2 := retryFrom_succ_fail env req 2 1 h2 (by decide)
  norm_num at e2
  rw [e3] at e2
  have e1 := retryFrom_succ_fail env req 1 2 h1 (by decide)
  norm_num at e1
  rw [e2] at e1
  exact e1

theorem retryFrom_ok (env : NetworkEnv) (req : ChatRequest) :
    ∀ (remaining attempt : Nat) (c ch : String),
      (retryFrom env req attempt remaining).outcome = Except.ok (c, ch) →
      (∃ i, attemptOnce env req i = some (c, ch)) ∨ (c = "" ∧ ch = "") := by
  intro remaining
  induction remaining with
  | zero =>
    intro attempt c ch h
    simp only [retryFrom] at h
    right
    rw [Except.ok.injEq, Prod.mk.injEq] at h
    exact ⟨h.1.symm, h.2.symm⟩
  | succ n ih =>
    intro attempt c ch h
    simp only [retryFrom] at h
    cases ha : attemptOnce env req attempt with
    | some pair =>
      rw [ha] at h
      obtain ⟨c', ch'⟩ := pair
      simp only [Except.ok.injEq, Prod.mk.injEq] at h
      left
      exact ⟨attempt, by rw [ha, h.1, h.2]⟩
    | none =>
      rw [ha] at h
      by_cases hn : n = 0
      · rw [if_pos hn] at h; simp at h
      · rw [if_neg hn] at h
        exact ih (attempt + 1) c ch h

theorem retryFrom_viaFallback (env : NetworkEnv) (req : ChatRequest) :
    ∀ (remaining attempt : Nat), remaining ≠ 0 →
      (retryFrom env req attempt remaining).viaFallback = false := by
  intro remaining
  induction remaining with
  | zero => intro attempt h; exact absurd rfl h
  | succ n ih =>
    intro attempt _
    simp only [retryFrom]
    cases ha : attemptOnce env req attempt with
    | some pair => rfl
    | none =>
      by_cases hn : n = 0
      · rw [if_pos hn]
      · rw [if_neg hn]
        exact ih (attempt + 1) hn

theorem retryFrom_trace_await (env : NetworkEnv) (req : ChatRequest) :
    ∀ (remaining attempt : Nat), ∀ e ∈ (retryFrom env req attempt remaining).trace,
      isAwait e = true := by
  intro remaining
  induction remaining with
  | zero => intro attempt e he; simp [retryFrom] at he
  | succ n ih =>
    intro attempt e he
    simp only [retryFrom] at he
    cases ha : attemptOnce env req attempt with
    | some pair => rw [ha] at he; simp at he; rw [he]; rfl
    | none =>
      rw [ha] at he
      by_cases hn : n = 0
      · rw [if_pos hn] at he
        simp at he
        rw [he]
        rfl
      · rw [if_neg hn] at he
        simp only [List.mem_cons] at he
        rcases he with rfl | rfl | hrest
        · rfl
        · rfl
        · exact ih (attempt + 1) e hrest

theorem callLLM_key_missing (s : AutoCorrectSettings) (env : NetworkEnv) (text : String)
    (h : s.apiKey = "") :
    callLLMForCorrection s env text =
      { outcome := Except.error apiKeyMissingMsg, viaFallback := false, trace := [] } := by
  rw [callLLMForCorrection, if_pos h]

theorem callLLM_all_attempts_fail (s : AutoCorrectSettings) (env : NetworkEnv) (text : String)
    (hkey : s.apiKey ≠ "")
    (h : ∀ i, 1 ≤ i → i ≤ 3 → attemptOnce env (requestOf s text) i = none) :
    networkCalls (callLLMForCorrection s env text).trace = 3 ∧
    sleepsOf (callLLMForCorrection s env text).trace = [1000, 2000] ∧
    (callLLMForCorrection s env text).outcome = Except.error terminalErrorMsg := by
  have hc : callLLMForCorrection s env text = retryFrom env (requestOf s text) 1 3 := by
    rw [callLLMForCorrection, if_neg hkey]
    rfl
  rw [hc, retry_all_fail env (requestOf s text)
    (h 1 (by decide) (by decide)) (h 2 (by decide) (by decide)) (h 3 (by decide) (by decide))]
  exact ⟨rfl, rfl, rfl⟩

/-! ### Claims about the orchestrator -/

/-- C1: when every network attempt fails (transport throw or non-success
status), `callLLMForCorrection` performs exactly 3 attempts, waits 1000 ms
after the first failed attempt and 2000 ms after the second, and terminates by
throwing the single constant terminal message, which does not record which
cause occurred. -/
theorem c1_retry_exhaustion (s : AutoCorrectSettings) (env : NetworkEnv) (text : String)
    (hkey : s.apiKey ≠ "")
    (hfail : ∀ i, 1 ≤ i → i ≤ 3 → networkAttemptFails env (requestOf s text) i) :
    networkCalls (callLLMForCorrection s env text).trace = 3 ∧
    sleepsOf (callLLMForCorrection s env text).trace = [1000, 2000] ∧
    (callLLMForCorrection s env text).outcome = Except.error terminalErrorMsg := by
  apply callLLM_all_attempts_fail s env text hkey
  intro i h1 h3
  exact attemptOnce_none_of_networkFail env (requestOf s text) i (hfail i h1 h3)

/-- C1 witness: a network that always throws at the transport level. -/
theorem c1_retry_exhaustion_witness :
    networkCalls (callLLMForCorrection sampleSettings envAllFail "Their are 3 cats.").trace = 3 ∧
    sleepsOf (callLLMForCorrection sampleSettings envAllFail "Their are 3 cats.").trace =
      [1000, 2000] ∧
    (callLLMForCorrection sampleSettings envAllFail "Their are 3 cats.").outcome =
      Except.error terminalErrorMsg :=
  c1_retry_exhaustion sampleSettings envAllFail "Their are 3 cats." (by decide)
    (fun _ _ _ => Or.inl rfl)

/-- C2: with an empty API key the orchestrator fails immediately with the
missing-credential message and an empty trace: zero network requests and zero
retry attempts, whatever the text. -/
theorem c2_missing_api_key (s : AutoCorrectSettings) (env : NetworkEnv) (text : String)
    (hkey : s.apiKey = "") :
    (callLLMForCorrection s env text).outcome = Except.error apiKeyMissingMsg ∧
    networkCalls (callLLMForCorrection s env text).trace = 0 ∧
    (callLLMForCorrection s env text).trace = [] := by
  rw [callLLM_key_missing s env text hkey]
  exact ⟨rfl, rfl, rfl⟩

/-- C2 witness: the default (empty) key with an arbitrary network. -/
theorem c2_missing_api_key_witness :
    (callLLMForCorrection DEFAULT_SETTINGS envAllFail "Their are 3 cats.").outcome =
      Except.error apiKeyMissingMsg ∧
    networkCalls (callLLMForCorrection DEFAULT_SETTINGS envAllFail "Their are 3 cats.").trace = 0 ∧
    (callLLMForCorrection DEFAULT_SETTINGS envAllFail "Their are 3 cats.").trace = [] :=
  c2_missing_api_key DEFAULT_SETTINGS envAllFail "Their are 3 cats." rfl

/-- C3 as written is false on the code: a success-status response whose
content starts with the separator token parses to an empty corrected string,
which the orchestrator returns as a success. -/
theorem c3_counterexample : ¬ C3ClaimStatement := by
  intro h
  have hx := h sampleSettings envSepOnly "Their are 3 cats." (by decide) (by decide) "" "x" rfl
  exact hx.2.1 rfl

/-- C3 amended: on any successful return both fields are whitespace-trimmed
strings (trim fixed points, possibly empty) and the corrected half contains no
occurrence of the separator token; the claim's non-emptiness does not hold. -/
theorem c3_success_trimmed_sep_free (s : AutoCorrectSettings) (env : NetworkEnv)
    (text : String) (hkey : s.apiKey ≠ "") (_htext : text ≠ "")
    (corrected changes : String)
    (hok : (callLLMForCorrection s env text).outcome = Except.ok (corrected, changes)) :
    jsTrim corrected = corrected ∧ jsTrim changes = changes ∧
    findSep sepToken.data corrected.data = none := by
  rw [callLLMForCorrection, if_neg hkey] at hok
  rcases retryFrom_ok env (requestOf s text) maxRetries 1 corrected changes hok with
    ⟨i, hi⟩ | ⟨hc, hch⟩
  · obtain ⟨content, hp⟩ := attemptOnce_ok env (requestOf s text) i corrected changes hi
    exact parseContent_shape content corrected changes hp
  · subst hc
    subst hch
    exact ⟨rfl, rfl, rfl⟩

/-- C3 amended, witness: the spec's own example exchange. -/
theorem c3_success_trimmed_sep_free_witness :
    jsTrim "There are 3 cats." = "There are 3 cats." ∧
    jsTrim "1. Their to There" = "1. Their to There" ∧
    findSep sepToken.data "There are 3 cats.".data = none :=
  c3_success_trimmed_sep_free sampleSettings envGood "Their are 3 cats." (by decide) (by decide)
    "There are 3 cats." "1. Their to There" rfl

/-- C4: a success-status response whose content lacks the separator token is
a failed attempt, retried under the same 3-attempt budget with the same 1s
then 2s delays and the same terminal error as a bad status — never returned
as a partial result. -/
theorem c4_missing_separator_retries (s : AutoCorrectSettings) (env : NetworkEnv) (text : String)
    (hkey : s.apiKey ≠ "")
    (hfail : ∀ i, 1 ≤ i → i ≤ 3 →
      ∃ r, env (requestOf s text) i = some r ∧ r.status = 200 ∧
        ∃ c, r.content = some c ∧ findSep sepToken.data c.data = none) :
    networkCalls (callLLMForCorrection s env text).trace = 3 ∧
    sleepsOf (callLLMForCorrection s env text).trace = [1000, 2000] ∧
    (callLLMForCorrection s env text).outcome = Except.error terminalErrorMsg := by
  apply callLLM_all_attempts_fail s env text hkey
  intro i h1 h3
  obtain ⟨r, hr, hst, c, hcont, hsep⟩ := hfail i h1 h3
  exact attemptOnce_none_of_noSep env (requestOf s text) i r c hr hst hcont hsep

/-- C4 witness: a network that always answers 200 with separator-free content. -/
theorem c4_missing_separator_retries_witness :
    networkCalls (callLLMForCorrection sampleSettings envNoSep "Their are 3 cats.").trace = 3 ∧
    sleepsOf (callLLMForCorrection sampleSettings envNoSep "Their are 3 cats.").trace =
      [1000, 2000] ∧
    (callLLMForCorrection sampleSettings envNoSep "Their are 3 cats.").outcome =
      Except.error terminalErrorMsg :=
  c4_missing_separator_retries sampleSettings envNoSep "Their are 3 cats." (by decide)
    (fun _ _ _ =>
      ⟨{ status := 200, content := some "There are 3 cats. No separator here." }, rfl, rfl,
        "There are 3 cats. No separator here.", rfl, by decide⟩)

/-- C10: the post-loop fallback `return { corrected: '', changes: '' }` is
never the source of the orchestrator's result: with `maxRetries = 3` every
call either returns from inside the retry loop or throws, so the final return
statement after the loop is unreachable. -/
theorem c10_fallback_unreachable (s : AutoCorrectSettings) (env : NetworkEnv) (text : String) :
    (callLLMForCorrection s env text).viaFallback = false := by
  by_cases hkey : s.apiKey = ""
  · rw [callLLM_key_missing s env text hkey]
  · rw [callLLMForCorrection, if_neg hkey]
    exact retryFrom_viaFallback env (requestOf s text) maxRetries 1 (by decide)

/-! ### Controller lemmas -/

theorem callLLM_trace_await (s : AutoCorrectSettings) (env : NetworkEnv) (text : String) :
    ∀ e ∈ (callLLMForCorrection s env text).trace, isAwait e = true := by
  intro e he
  by_cases hkey : s.apiKey = ""
  · rw [callLLM_key_missing s env text hkey] at he
    simp at he
  · rw [callLLMForCorrection, if_neg hkey] at he
    exact retryFrom_trace_await env (requestOf s text) maxRetries 1 e he

theorem autoCorrect_empty (s : AutoCorrectSettings) (env : NetworkEnv) (editor : EditorState)
    (so : Bool) (ms : Nat) (h : readText editor so = "") :
    autoCorrectText s env editor so ms = [Event.notice noTextMsg] := by
  simp [autoCorrectText, h]

theorem autoCorrect_error_trace (s : AutoCorrectSettings) (env : NetworkEnv)
    (editor : EditorState) (so : Bool) (ms : Nat) (e : String)
    (hne : readText editor so ≠ "")
    (herr : (callLLMForCorrection s env (readText editor so)).outcome = Except.error e) :
    autoCorrectText s env editor so ms =
      [Event.notice (processingMessage (scopeOf so) (jsWordCount (readText editor so)) s.model),
       Event.statusBar (processingMessage (scopeOf so) (jsWordCount (readText editor so)) s.model),
       Event.startIndicator] ++
      (callLLMForCorrection s env (readText editor so)).trace ++
      [Event.notice errorMessage, Event.statusBar errorMessage, Event.stopIndicator] := by
  simp only [autoCorrectText, if_neg hne, herr]

theorem autoCorrect_ok_trace (s : AutoCorrectSettings) (env : NetworkEnv)
    (editor : EditorState) (so : Bool) (ms : Nat) (c ch : String)
    (hne : readText editor so ≠ "")
    (hok : (callLLMForCorrection s env (readText editor so)).outcome = Except.ok (c, ch)) :
    autoCorrectText s env editor so ms =
      [Event.notice (processingMessage (scopeOf so) (jsWordCount (readText editor so)) s.model),
       Event.statusBar (processingMessage (scopeOf so) (jsWordCount (readText editor so)) s.model),
       Event.startIndicator] ++
      (callLLMForCorrection s env (readText editor so)).trace ++
      [(if so then Event.replaceSelection c else Event.setValue c),
       Event.notice (successMessage (scopeOf so) (toFixed2Seconds ms)),
       Event.statusBar (successMessage (scopeOf so) (toFixed2Seconds ms)),
       Event.openModal ch (toFixed2Seconds ms), Event.stopIndicator] := by
  simp only [autoCorrectText, if_neg hne, hok]

theorem trace_awaits_counts (t : List Event) (h : ∀ e ∈ t, isAwait e = true) :
    docWrites t = 0 ∧ modalOpens t = 0 ∧ (∀ msg, noticeCount msg t = 0) ∧
    (∀ msg, statusBarCount msg t = 0) := by
  refine ⟨?_, ?_, fun msg => ?_, fun msg => ?_⟩
  · simp only [docWrites, List.length_eq_zero, List.filter_eq_nil_iff]
    intro e he
    have he2 := h e he
    cases e <;> simp_all [isAwait]
  · simp only [modalOpens, List.length_eq_zero, List.filter_eq_nil_iff]
    intro e he
    have he2 := h e he
    cases e <;> simp_all [isAwait]
  · rw [noticeCount, List.count_eq_zero]
    intro hmem
    have := h _ hmem
    simp [isAwait] at this
  · rw [statusBarCount, List.count_eq_zero]
    intro hmem
    have := h _ hmem
    simp [isAwait] at this

theorem docWrites_append (a b : List Event) : docWrites (a ++ b) = docWrites a + docWrites b := by
  simp [docWrites, List.filter_append]

theorem modalOpens_append (a b : List Event) :
    modalOpens (a ++ b) = modalOpens a + modalOpens b := by
  simp [modalOpens, List.filter_append]

theorem processingMessage_ne_errorMessage (scope : String) (wc : Nat) (m : ModelId) :
    processingMessage scope wc m ≠ errorMessage := by
  intro h
  have hd := congrArg String.data h
  have hP : "Processing ".data = 'P' :: "rocessing ".data := by decide
  have hE : errorMessage.data =
      'E' :: "rror during auto-correction. Please check your API key and try again.".data := by
    decide
  simp only [processingMessage, String.data_append, hP, hE, List.cons_append] at hd
  simp at hd

/-! ### Claims about the controller -/

/-- C5 as written is false on the code: the emptiness check is JavaScript
truthiness (`!text`), so a whitespace-only, non-empty text passes it: the
indicator is started and network attempts are issued. -/
theorem c5_counterexample : ¬ C5ClaimStatement := by
  intro h
  have hx := h sampleSettings envAllFail spaceSelectionEditor true 0 (by decide)
  exact hx.2 (by decide)

/-- C5 amended: only a strictly empty text (`""`) short-circuits: the
operation emits the nothing-to-correct notice only, with no network call and
no indicator start; whitespace-only non-empty text is not short-circuited. -/
theorem c5_empty_text_amended (s : AutoCorrectSettings) (env : NetworkEnv)
    (editor : EditorState) (so : Bool) (ms : Nat) (h : readText editor so = "") :
    autoCorrectText s env editor so ms = [Event.notice noTextMsg] ∧
    networkCalls (autoCorrectText s env editor so ms) = 0 ∧
    Event.startIndicator ∉ autoCorrectText s env editor so ms := by
  have ht := autoCorrect_empty s env editor so ms h
  rw [ht]
  exact ⟨rfl, rfl, by decide⟩

/-- C5 amended, witness: an empty document in whole-file mode. -/
theorem c5_empty_text_amended_witness :
    autoCorrectText sampleSettings envAllFail emptyEditor false 0 = [Event.notice noTextMsg] ∧
    networkCalls (autoCorrectText sampleSettings envAllFail emptyEditor false 0) = 0 ∧
    Event.startIndicator ∉ autoCorrectText sampleSettings envAllFail emptyEditor false 0 :=
  c5_empty_text_amended sampleSettings envAllFail emptyEditor false 0 rfl

/-- C6: when the orchestrator call fails, the invocation performs no document
write, opens no changes modal, and emits exactly one failure notice mirrored
by exactly one status-bar message with the same text. -/
theorem c6_failure_no_mutation (s : AutoCorrectSettings) (env : NetworkEnv)
    (editor : EditorState) (so : Bool) (ms : Nat) (e : String)
    (hne : readText editor so ≠ "")
    (herr : (callLLMForCorrection s env (readText editor so)).outcome = Except.error e) :
    docWrites (autoCorrectText s env editor so ms) = 0 ∧
    modalOpens (autoCorrectText s env editor so ms) = 0 ∧
    noticeCount errorMessage (autoCorrectText s env editor so ms) = 1 ∧
    statusBarCount errorMessage (autoCorrectText s env editor so ms) = 1 := by
  rw [autoCorrect_error_trace s env editor so ms e hne herr]
  obtain ⟨hdw, hmo, hnc, hsc⟩ :=
    trace_awaits_counts (callLLMForCorrection s env (readText editor so)).trace
      (callLLM_trace_await s env (readText editor so))
  have hpm := processingMessage_ne_errorMessage (scopeOf so)
    (jsWordCount (readText editor so)) s.model
  refine ⟨?_, ?_, ?_, ?_⟩
  · rw [docWrites_append, docWrites_append, hdw]
    rfl
  · rw [modalOpens_append, modalOpens_append, hmo]
    rfl
  · rw [noticeCount, List.count_append, List.count_append]
    rw [← noticeCount, ← noticeCount, ← noticeCount, hnc errorMessage]
    simp [noticeCount, List.count_cons, hpm]
  · rw [statusBarCount, List.count_append, List.count_append]
    rw [← statusBarCount, ← statusBarCount, ← statusBarCount, hsc errorMessage]
    simp [statusBarCount, List.count_cons, hpm]

/-- C6 witness: a failing network on a non-empty document. -/
theorem c6_failure_no_mutation_witness :
    docWrites (autoCorrectText sampleSettings envAllFail sampleEditor false 0) = 0 ∧
    modalOpens (autoCorrectText sampleSettings envAllFail sampleEditor false 0) = 0 ∧
    noticeCount errorMessage (autoCorrectText sampleSettings envAllFail sampleEditor false 0) = 1 ∧
    statusBarCount errorMessage (autoCorrectText sampleSettings envAllFail sampleEditor false 0) =
      1 :=
  c6_failure_no_mutation sampleSettings envAllFail sampleEditor false 0 terminalErrorMsg
    (by decide) rfl

/-- C7: on a successful orchestrator result the controller writes the
corrected text into the selection when `selectionOnly` and into the whole
document otherwise (exactly one document write), emits the success notice and
the mirrored status-bar message carrying the two-decimal elapsed seconds, and
opens the changes modal with the change log and that elapsed time. -/
theorem c7_success_application (s : AutoCorrectSettings) (env : NetworkEnv)
    (editor : EditorState) (so : Bool) (ms : Nat) (c ch : String)
    (hne : readText editor so ≠ "")
    (hok : (callLLMForCorrection s env (readText editor so)).outcome = Except.ok (c, ch)) :
    (so = true → Event.replaceSelection c ∈ autoCorrectText s env editor so ms) ∧
    (so = false → Event.setValue c ∈ autoCorrectText s env editor so ms) ∧
    docWrites (autoCorrectText s env editor so ms) = 1 ∧
    Event.notice (successMessage (scopeOf so) (toFixed2Seconds ms)) ∈
      autoCorrectText s env editor so ms ∧
    Event.statusBar (successMessage (scopeOf so) (toFixed2Seconds ms)) ∈
      autoCorrectText s env editor so ms ∧
    Event.openModal ch (toFixed2Seconds ms) ∈ autoCorrectText s env editor so ms := by
  rw [autoCorrect_ok_trace s env editor so ms c ch hne hok]
  obtain ⟨hdw, _, _, _⟩ :=
    trace_awaits_counts (callLLMForCorrection s env (readText editor so)).trace
      (callLLM_trace_await s env (readText editor so))
  refine ⟨?_, ?_, ?_, ?_, ?_, ?_⟩
  · intro hso
    subst hso
    simp
  · intro hso
    subst hso
    simp
  · rw [docWrites_append, docWrites_append, hdw]
    cases so <;> rfl
  · simp
  · simp
  · simp

/-- C7 witness: the spec's example exchange applied to the whole document. -/
theorem c7_success_application_witness :
    (false = true →
      Event.replaceSelection "There are 3 cats." ∈
        autoCorrectText sampleSettings envGood sampleEditor false 1234) ∧
    (false = false →
      Event.setValue "There are 3 cats." ∈
        autoCorrectText sampleSettings envGood sampleEditor false 1234) ∧
    docWrites (autoCorrectText sampleSettings envGood sampleEditor false 1234) = 1 ∧
    Event.notice (successMessage (scopeOf false) (toFixed2Seconds 1234)) ∈
      autoCorrectText sampleSettings envGood sampleEditor false 1234 ∧
    Event.statusBar (successMessage (scopeOf false) (toFixed2Seconds 1234)) ∈
      autoCorrectText sampleSettings envGood sampleEditor false 1234 ∧
    Event.openModal "1. Their to There" (toFixed2Seconds 1234) ∈
      autoCorrectText sampleSettings envGood sampleEditor false 1234 :=
  c7_success_application sampleSettings envGood sampleEditor false 1234
    "There are 3 cats." "1. Their to There" (by decide) rfl

/-- C8: whenever the indicator is started, the trace ends with a
suspension-free segment that contains the outcome notice and its mirrored
status-bar message and finishes with the indicator stop: no yield to the
event loop separates the outward-visible result from the stop, so the
indicator is stopped by the time the result is observable, on both the
success and the failure path. -/
theorem c8_indicator_stopped (s : AutoCorrectSettings) (env : NetworkEnv)
    (editor : EditorState) (so : Bool) (ms : Nat)
    (hstart : Event.startIndicator ∈ autoCorrectText s env editor so ms) :
    ∃ body tail, autoCorrectText s env editor so ms = body ++ tail ∧
      (∀ e ∈ tail, isAwait e = false) ∧
      tail.getLast? = some Event.stopIndicator ∧
      ∃ m, Event.notice m ∈ tail ∧ Event.statusBar m ∈ tail := by
  by_cases hne : readText editor so = ""
  · rw [autoCorrect_empty s env editor so ms hne] at hstart
    simp at hstart
  · cases hout : (callLLMForCorrection s env (readText editor so)).outcome with
    | error e =>
      rw [autoCorrect_error_trace s env editor so ms e hne hout]
      refine ⟨_, [Event.notice errorMessage, Event.statusBar errorMessage, Event.stopIndicator],
        by rw [List.append_assoc], ?_, rfl, errorMessage, by simp, by simp⟩
      intro ev hev
      simp only [List.mem_cons, List.not_mem_nil, or_false] at hev
      rcases hev with rfl | rfl | rfl
      · rfl
      · rfl
      · rfl
    | ok pair =>
      obtain ⟨c, ch⟩ := pair
      rw [autoCorrect_ok_trace s env editor so ms c ch hne hout]
      refine ⟨_, [(if so then Event.replaceSelection c else Event.setValue c),
        Event.notice (successMessage (scopeOf so) (toFixed2Seconds ms)),
        Event.statusBar (successMessage (scopeOf so) (toFixed2Seconds ms)),
        Event.openModal ch (toFixed2Seconds ms), Event.stopIndicator],
        by rw [List.append_assoc], ?_, rfl,
        successMessage (scopeOf so) (toFixed2Seconds ms), by simp, by simp⟩
      intro ev hev
      simp only [List.mem_cons, List.not_mem_nil, or_false] at hev
      rcases hev with rfl | rfl | rfl | rfl | rfl
      · cases so <;> rfl
      · rfl
      · rfl
      · rfl
      · rfl

/-- C8 witness: the failure path of a concrete non-empty run. -/
theorem c8_indicator_stopped_witness :
    ∃ body tail, autoCorrectText sampleSettings envAllFail sampleEditor false 0 = body ++ tail ∧
      (∀ e ∈ tail, isAwait e = false) ∧
      tail.getLast? = some Event.stopIndicator ∧
      ∃ m, Event.notice m ∈ tail ∧ Event.statusBar m ∈ tail :=
  c8_indicator_stopped sampleSettings envAllFail sampleEditor false 0 (by decide)

/-! ### Indicator-state invariant -/

theorem runIndicator_invariant (ops : List IndicatorOp) :
    (runIndicator ops).activeTimers = (runIndicator ops).processingIndicator.toList := by
  suffices h : ∀ st : IndicatorState,
      st.activeTimers = st.processingIndicator.toList →
      (ops.foldl indicatorStep st).activeTimers =
        (ops.foldl indicatorStep st).processingIndicator.toList by
    exact h initialIndicatorState rfl
  induction ops with
  | nil => intro st hst; exact hst
  | cons op rest ih =>
    intro st hst
    rw [List.foldl_cons]
    apply ih
    cases op with
    | start =>
      cases hpi : st.processingIndicator with
      | none => simp [indicatorStep, startProcessingIndicator, hpi, hst]
      | some h0 => simp [indicatorStep, startProcessingIndicator, hpi, hst]
    | stop =>
      cases hpi : st.processingIndicator with
      | none => simp [indicatorStep, stopProcessingIndicator, hpi, hst]
      | some h0 => simp [indicatorStep, stopProcessingIndicator, hpi, hst]

/-- C9: at most one indicator interval is ever live: from the plugin's
initial state, any sequence of start/stop operations leaves at most one
active timer, the stored `processingIndicator` handle is null exactly when no
timer is running, and stopping with a null handle is a no-op on the state. -/
theorem c9_indicator_single_timer :
    (∀ ops : List IndicatorOp,
      (runIndicator ops).activeTimers.length ≤ 1 ∧
      ((runIndicator ops).processingIndicator = none ↔
        (runIndicator ops).activeTimers = [])) ∧
    (∀ st : IndicatorState, st.processingIndicator = none →
      stopProcessingIndicator st = st) := by
  constructor
  · intro ops
    have h := runIndicator_invariant ops
    rw [h]
    cases (runIndicator ops).processingIndicator with
    | none => simp
    | some h0 => simp
  · intro st h
    simp [stopProcessingIndicator, h]

/-- C9 witness: one start followed by one stop, and the no-op stop at the
initial state. -/
theorem c9_indicator_single_timer_witness :
    (runIndicator [IndicatorOp.start, IndicatorOp.stop]).activeTimers.length ≤ 1 ∧
    ((runIndicator [IndicatorOp.start, IndicatorOp.stop]).processingIndicator = none ↔
      (runIndicator [IndicatorOp.start, IndicatorOp.stop]).activeTimers = []) ∧
    stopProcessingIndicator initialIndicatorState = initialIndicatorState :=
  ⟨(c9_indicator_single_timer.1 [IndicatorOp.start, IndicatorOp.stop]).1,
   (c9_indicator_single_timer.1 [IndicatorOp.start, IndicatorOp.stop]).2,
   c9_indicator_single_timer.2 initialIndicatorState rfl⟩

end AutoCorrect
